import Mathlib

/-!
Verification of the sonatrach-manager document-field extraction and
tag-vocabulary engines (`backend/tag_extraction.py`, `backend/main.py`).

Python text is modelled as `Str := List Char` (Python strings are sequences
of code points; all functions here mirror the source operations character by
character, ASCII-faithful where the source relies on ASCII casing).
Python `dict`s are modelled as insertion-ordered association lists with the
exact assignment semantics of CPython dicts: assigning to an existing key
replaces the value in place, assigning to a fresh key appends.

Python `list(set(xs))` iterates a set in an unspecified order; it is modelled
by `List.dedup`. Every theorem below that touches such a value depends only
on order-independent facts (membership, distinctness, length) or on a
subsequent `sorted(...)`, which canonicalizes any iteration order.
-/

set_option maxHeartbeats 1000000
set_option maxRecDepth 20000

abbrev Str := List Char

/-- Coerce a Lean string literal to the character-list model. -/
def str (s : String) : Str := s.data

/-! ## Character classes (ASCII, as used by the regexes in the Python source) -/

def isUpperAlpha (c : Char) : Bool := 'A' ≤ c && c ≤ 'Z'

def isLowerAlpha (c : Char) : Bool := 'a' ≤ c && c ≤ 'z'

def isAlphaChar (c : Char) : Bool := isUpperAlpha c || isLowerAlpha c

def isDigitChar (c : Char) : Bool := '0' ≤ c && c ≤ '9'

/-- Python regex `\w` (ASCII part relevant to this corpus). -/
def isWordChar (c : Char) : Bool := isAlphaChar c || isDigitChar c || c = '_'

/-- Python `str.isspace` / regex `\s` for the ASCII whitespace characters. -/
def isSpaceChar (c : Char) : Bool :=
  c = ' ' || c = '\t' || c = '\n' || c = '\x0b' || c = '\x0c' || c = '\r'

def toUpperChar (c : Char) : Char := if isLowerAlpha c then Char.ofNat (c.toNat - 32) else c

def toLowerChar (c : Char) : Char := if isUpperAlpha c then Char.ofNat (c.toNat + 32) else c

/-! ## Python string primitives -/

/-- Python text.split on a newline character: always yields one piece more than separators;
`"".split('\n') = [""]`. -/
def splitLines : Str → List Str
  | [] => [[]]
  | c :: rest =>
    if c = '\n' then [] :: splitLines rest
    else
      match splitLines rest with
      | [] => [[c]]
      | s :: ss => (c :: s) :: ss

/-- Python `s.split("-")`: split on every dash, keeping empty pieces. -/
def splitOnDash : Str → List Str
  | [] => [[]]
  | c :: rest =>
    if c = '-' then [] :: splitOnDash rest
    else
      match splitOnDash rest with
      | [] => [[c]]
      | s :: ss => (c :: s) :: ss

/-- Python `s.split("-")[0]`. -/
def splitDashHead (s : Str) : Str := (splitOnDash s).headD []

/-- Python `s.strip()`. -/
def pyStrip (s : Str) : Str :=
  ((s.dropWhile isSpaceChar).reverse.dropWhile isSpaceChar).reverse

/-- Python `s.upper()` (ASCII). -/
def pyUpper (s : Str) : Str := s.map toUpperChar

/-- Python `s.lower()` (ASCII). -/
def pyLower (s : Str) : Str := s.map toLowerChar

/-- Python `sub in s` (substring containment). -/
def isInfixStr : Str → Str → Bool
  | sub, [] => sub.isEmpty
  | sub, c :: rest => List.isPrefixOf sub (c :: rest) || isInfixStr sub rest

/-- Python `s.startswith(p)`. -/
def startsWithStr (p s : Str) : Bool := List.isPrefixOf p s

/-- Python `s.isupper()`: at least one cased character and no lowercase one
(ASCII letters are the cased characters in this corpus). -/
def pyIsUpper (s : Str) : Bool :=
  s.any isAlphaChar && s.all (fun c => !(isLowerAlpha c))

/-- Python `s.title()` (ASCII): first letter of each alphabetic run uppercased,
the rest lowercased. -/
def pyTitleGo : Bool → Str → Str
  | _, [] => []
  | prevCased, c :: rest =>
    if isAlphaChar c then
      (if prevCased then toLowerChar c else toUpperChar c) :: pyTitleGo true rest
    else c :: pyTitleGo false rest

def pyTitle (s : Str) : Str := pyTitleGo false s

/-- Worker for `splitWs`: `cur` is the word currently being accumulated, in
reverse character order. -/
def splitWsGo : Str → Str → List Str
  | cur, [] => if cur.isEmpty then [] else [cur.reverse]
  | cur, c :: rest =>
    if isSpaceChar c then
      if cur.isEmpty then splitWsGo [] rest else cur.reverse :: splitWsGo [] rest
    else splitWsGo (c :: cur) rest

/-- Python `s.split()`: split on whitespace runs, dropping empty pieces. -/
def splitWs (s : Str) : List Str := splitWsGo [] s

/-- Python `str(n)` for a natural number. -/
def natToStr (n : Nat) : Str := (Nat.repr n).data

/-- Python comma-space join of items. -/
def commaJoin (items : List Str) : Str := List.intercalate (str ", ") items

/-- Python newline join of items. -/
def joinNL (items : List Str) : Str := List.intercalate (str "\n") items

/-! ## Python dict model: insertion-ordered association lists -/

/-- CPython `d[k] = v`: replace in place if the key exists, else append. -/
def dictInsert {α : Type} (m : List (Str × α)) (k : Str) (v : α) : List (Str × α) :=
  if m.any (fun p => decide (p.1 = k)) then
    m.map (fun p => if p.1 = k then (k, v) else p)
  else m ++ [(k, v)]

/-- CPython `d[k]` / `k in d` combined: first binding for `k`, if any. -/
def lookupA {α : Type} (m : List (Str × α)) (k : Str) : Option α :=
  match m with
  | [] => none
  | p :: rest => if p.1 = k then some p.2 else lookupA rest k

/-- CPython `d.update(kvs)` where `kvs` is itself a dict (iterated in order). -/
def pyUpdate {α : Type} (m kvs : List (Str × α)) : List (Str × α) :=
  kvs.foldl (fun acc p => dictInsert acc p.1 p.2) m

/-- CPython `if k not in d: d[k] = []` followed by `d[k].append(v)`. -/
def dictAppendList {α : Type} (m : List (Str × List α)) (k : Str) (v : α) :
    List (Str × List α) :=
  if m.any (fun p => decide (p.1 = k)) then
    m.map (fun p => if p.1 = k then (p.1, p.2 ++ [v]) else p)
  else m ++ [(k, [v])]

/-- Drop every binding of key `k` (used only in theorem statements). -/
def eraseKeyAll {α : Type} (m : List (Str × α)) (k : Str) : List (Str × α) :=
  m.filter (fun p => decide (p.1 ≠ k))

/-! ## Tag extraction (`backend/tag_extraction.py`) -/

/-- Regex `^[A-Z]{1,6}$` (`pattern_accronym`), as a full-string match. -/
def reAcronym (w : Str) : Bool :=
  1 ≤ w.length && w.length ≤ 6 && w.all isUpperAlpha

/-- Regex `^[0-9]{4}[A-Z]?$` (`pattern_id_tag`), as a full-string match. -/
def reIdTag (w : Str) : Bool :=
  (w.length = 4 && w.all isDigitChar) ||
  (w.length = 5 && (w.take 4).all isDigitChar && (w.drop 4).all isUpperAlpha)

/-- Main loop of `extract_possible_tags`: slides over adjacent token pairs; on a
qualifying pair emits `f"{accronym}-{id_tag}"`, and records the acronym as new
(appending it to the in-memory `list_tags`) if it was not yet known.
The index-based Python loop (`for i, word in enumerate(text_list)` with a
guarded access to `text_list[i+1]`) is rendered as structural recursion on the
token list. -/
def extractTagsLoop (not_tags : List Str) :
    List Str → List Str → List Str × List Str
  | _, [] => ([], [])
  | _, [_] => ([], [])
  | list_tags, w :: next :: rest =>
    if 0 < w.length ∧ w.length ≤ 6 then
      if reAcronym w ∧ ¬ w ∈ not_tags then
        if reIdTag next then
          let full_tag := w ++ '-' :: next
          if w ∈ list_tags then
            let r := extractTagsLoop not_tags list_tags (next :: rest)
            (full_tag :: r.1, r.2)
          else
            let r := extractTagsLoop not_tags (list_tags ++ [w]) (next :: rest)
            (full_tag :: r.1, w :: r.2)
        else extractTagsLoop not_tags list_tags (next :: rest)
      else extractTagsLoop not_tags list_tags (next :: rest)
    else extractTagsLoop not_tags list_tags (next :: rest)

/-- Python `extract_possible_tags(text_list, not_tags, list_tags)`. -/
def extract_possible_tags (text_list not_tags list_tags : List Str) :
    List Str × List Str :=
  extractTagsLoop not_tags list_tags text_list

/-! ## Vocabulary store data model -/

structure Instrument where
  tag : Str
  tag_less_unit : Str
  accronyme : Str
  datasheet_file_id : Str
  datasheet_pages : List Str
deriving DecidableEq, Repr

structure FileEntry where
  path : Str
  unit : Str
  number_of_instruments : Nat
deriving DecidableEq, Repr

/-- The persistent `extracted_data.json` document. -/
structure VocabData where
  files_pid : List (Str × FileEntry)
  instruments : List (Str × List Instrument)
  acronyms_to_types : List (Str × Str)
  not_tags : List Str
deriving DecidableEq, Repr

/-- Python `clean_final_tags(full_tag_list, data)`:
keep tags whose `tag.split("-")[0]` is not in `data["not_tags"]`. -/
def clean_final_tags (full_tag_list : List Str) (data : VocabData) : List Str :=
  full_tag_list.filter (fun tag => decide (¬ splitDashHead tag ∈ data.not_tags))

/-- Test that `data["instruments"][k]` is missing or empty
(the `k not in data["instruments"] or not data["instruments"][k]` test). -/
def instrMissingOrEmpty (instruments : List (Str × List Instrument)) (k : Str) : Bool :=
  match lookupA instruments k with
  | none => true
  | some l => l.isEmpty

/-- The `orphans` list computed by `repair_data_structure`: instrument keys
with no corresponding `files.pid` entry. -/
def repairOrphans (d : VocabData) : List Str :=
  (d.instruments.map Prod.fst).filter
    (fun k => decide (¬ k ∈ d.files_pid.map Prod.fst))

/-- The instruments mapping after the orphan-deletion loop of
`repair_data_structure`. -/
def repairInstruments (d : VocabData) : List (Str × List Instrument) :=
  d.instruments.filter (fun p => decide (¬ p.1 ∈ repairOrphans d))

/-- The `empty_files` list computed by `repair_data_structure` after the
orphan deletions: file keys whose instrument list is missing or empty. -/
def repairEmptyFiles (d : VocabData) : List Str :=
  (d.files_pid.map Prod.fst).filter
    (fun k => instrMissingOrEmpty (repairInstruments d) k)

/-- The `files.pid` mapping after the file-deletion loop of
`repair_data_structure`. -/
def repairFiles (d : VocabData) : List (Str × FileEntry) :=
  d.files_pid.filter (fun p => decide (¬ p.1 ∈ repairEmptyFiles d))

/-- Python `repair_data_structure(data)` (logging trimmed): returns the repaired document
together with the list of change-log lines. The Python function also writes a
timestamped header plus either the change lines or a single
"✅ Aucune incohérence détectée" line to `logs/repair_log.txt`; the returned
list here is exactly the set of change lines, so "no inconsistency" is
reported iff this list is empty. -/
def repair_data_structure (data : VocabData) : VocabData × List Str :=
  let valid_file_keys := data.files_pid.map Prod.fst
  let orphans := (data.instruments.map Prod.fst).filter
    (fun k => decide (¬ k ∈ valid_file_keys))
  let instruments1 := data.instruments.filter (fun p => decide (¬ p.1 ∈ orphans))
  let log1 := orphans.map (fun k => str "❌ Instruments orphelins supprimés : " ++ k)
  let empty_files := (data.files_pid.map Prod.fst).filter
    (fun k => instrMissingOrEmpty instruments1 k)
  let files1 := data.files_pid.filter (fun p => decide (¬ p.1 ∈ empty_files))
  let log2 := empty_files.map (fun k => str "⚠️ Fichier PDF sans instrument supprimé : " ++ k)
  ({ data with files_pid := files1, instruments := instruments1 }, log1 ++ log2)

/-- Python `save_pdf_data(data, pdf_filename, final_tags)`: mutates the document and
returns the assigned file key. Rendered as a pure function returning the
updated document and the key. -/
def save_pdf_data (data : VocabData) (pdf_filename : Str) (final_tags : List Str) :
    VocabData × Str :=
  let parts := splitOnDash pdf_filename
  let unit_code := match parts with
    | _ :: u :: _ => u
    | _ => str "UNKNOWN"
  let file_key := str "file_" ++ natToStr (data.files_pid.length + 1)
  let files' := dictInsert data.files_pid file_key
    ⟨pdf_filename, unit_code, final_tags.length⟩
  let instruments' := final_tags.foldl (fun ins instrument =>
    dictAppendList ins file_key
      ⟨unit_code ++ '-' :: instrument, instrument, splitDashHead instrument, [], []⟩)
    data.instruments
  ({ data with files_pid := files', instruments := instruments' }, file_key)

/-- List `list_tags` of `load_reference_data`: keys of `acronyms_to_types` sorted by
`key=lambda x: (-len(x[0]), x[0])` (longest first, ties lexicographic). -/
def acrSortRel (a b : Str × Str) : Prop :=
  b.1.length < a.1.length ∨ (a.1.length = b.1.length ∧ ¬ List.Lex (· < ·) b.1 a.1)

instance : DecidableRel acrSortRel := fun a b => by
  unfold acrSortRel
  exact inferInstance

def sortedAcronymKeys (data : VocabData) : List Str :=
  (List.insertionSort acrSortRel data.acronyms_to_types).map Prod.fst

/-- Outcome record of `process_pdf_for_tags` (the returned Python dict;
`file_key` / `total_words_analyzed` are present only on the success path). -/
structure ProcResult where
  status : Str
  message : Str
  tags : List Str
  new_acronyms : List Str
  file_key : Option Str
  total_words_analyzed : Option Nat
deriving DecidableEq, Repr

/-- Auto-approval loop: `for acronym in new_acronyms: if acronym not in
data["acronyms_to_types"]: data["acronyms_to_types"][acronym] = ""`. -/
def addNewAcronyms (data : VocabData) (new_acronyms : List Str) : VocabData :=
  new_acronyms.foldl (fun d a =>
    if (lookupA d.acronyms_to_types a).isSome then d
    else { d with acronyms_to_types := dictInsert d.acronyms_to_types a [] }) data

/-- Python `process_pdf_for_tags(pdf_content, filename)` with the PDF-to-token
collaborator factored out: `text_list` stands for
`extract_text_from_content(pdf_content)`, and `store` for the JSON document on
disk. Returns `(result, store after the call, whether the vocabulary file was
written)`. `repair_data_structure` only appends to its own log file; the
vocabulary JSON is written solely by the `save_json_file` call on the
tags-found path. -/
def process_pdf_for_tags (store : VocabData) (filename : Str) (text_list : List Str) :
    ProcResult × VocabData × Bool :=
  let list_tags := sortedAcronymKeys store
  let not_tags := store.not_tags
  let data := (repair_data_structure store).1
  if data.files_pid.any (fun p => decide (filename = p.2.path)) then
    (⟨str "already_processed",
      str "File " ++ filename ++ str " already processed", [], [], none, none⟩,
     store, false)
  else if text_list.isEmpty then
    (⟨str "error", str "Could not extract text from PDF", [], [], none, none⟩,
     store, false)
  else
    let r := extract_possible_tags text_list not_tags list_tags
    let final_tags := clean_final_tags r.1 data
    let data2 := addNewAcronyms data r.2
    let msg := str "Processed " ++ filename ++ str " - found " ++
      natToStr final_tags.length ++ str " tags"
    if final_tags.isEmpty then
      (⟨str "success", msg, final_tags, r.2, none, some text_list.length⟩,
       store, false)
    else
      let s := save_pdf_data data2 filename final_tags
      (⟨str "success", msg, final_tags, r.2, some s.2, some text_list.length⟩,
       s.1, true)

/-! ## Declarative restatement of the tag-candidate emission (spec words)

"token[i] qualifies as an acronym candidate if it matches `^[A-Z]{1,6}$` and is
not in the false-positive set; token[i+1] qualifies as an id-tag if it matches
`^[0-9]{4}[A-Z]?$`. On a qualifying adjacent pair, emit a combined tag
`ACRONYM-IDTAG` in document order (duplicates allowed)." -/
def emittedTags (text_list not_tags : List Str) : List Str :=
  (text_list.zip text_list.tail).filterMap (fun p =>
    if reAcronym p.1 ∧ ¬ p.1 ∈ not_tags ∧ reIdTag p.2
    then some (p.1 ++ '-' :: p.2) else none)

/-! ## Generic regex scan driver (`re.findall` semantics)

A matcher `ml prev s` reports a successful match at the current position as
`some (n, out)` with `n ≥ 1` the number of characters consumed and `out` the
emitted value (the whole match, or the capture group for grouped patterns);
`prev` is the character just before the current position, for `\b` checks.
The driver emits matches left to right and resumes after each match, exactly
like `re.findall` for the patterns in this corpus (none of which can match
the empty string). -/

def scanAllGo {α : Type} (ml : Option Char → Str → Option (Nat × α)) :
    Nat → Option Char → Str → List α
  | 0, _, _ => []
  | _ + 1, _, [] => []
  | fuel + 1, prev, c :: rest =>
    match ml prev (c :: rest) with
    | some (n + 1, a) =>
      a :: scanAllGo ml fuel (((c :: rest).take (n + 1)).getLast?) ((c :: rest).drop (n + 1))
    | _ => scanAllGo ml fuel (some c) rest

/-- Fuel-driven formulation: every successful match consumes at least one
character and every failure advances one position, so a fuel equal to the
string length always suffices and the fuel bound is never the reason the scan
stops. -/
def scanAllG {α : Type} (ml : Option Char → Str → Option (Nat × α))
    (prev : Option Char) (s : Str) : List α :=
  scanAllGo ml s.length prev s

def isWordOpt : Option Char → Bool
  | some c => isWordChar c
  | none => false

def digitRunLen (s : Str) : Nat := (s.takeWhile isDigitChar).length

def upperRunLen (s : Str) : Nat := (s.takeWhile isUpperAlpha).length

def spaceRunLen (s : Str) : Nat := (s.takeWhile isSpaceChar).length

/-- Candidate consumption counts for a greedy bounded quantifier `{lo,hi}`
whose underlying atom can consume at most `r` characters here: descending
from `min hi r` down to `lo` (backtracking order). -/
def quantCands (lo hi r : Nat) : List Nat :=
  ((List.range (hi + 1)).filter (fun n => decide (lo ≤ n) && decide (n ≤ r))).reverse

/-! ## Pattern matchers of `backend/main.py` -/

/-- Regex `\b[A-Za-z]{2}\d{4}\b` at the current position. -/
def tl4nML (prev : Option Char) (s : Str) : Option (Nat × Str) :=
  if isWordOpt prev then none
  else
    match s with
    | c0 :: c1 :: c2 :: c3 :: c4 :: c5 :: rest =>
      if isAlphaChar c0 && isAlphaChar c1 && isDigitChar c2 && isDigitChar c3 &&
          isDigitChar c4 && isDigitChar c5 && !(isWordOpt rest.head?) then
        some (6, [c0, c1, c2, c3, c4, c5])
      else none
    | _ => none

/-- Findall of `r'\b[A-Za-z]{2}\d{4}\b'`
(`extract_two_letter_four_number_patterns`). -/
def twoLetterFourNumberMatches (text : Str) : List Str := scanAllG tl4nML none text

/-- Regex `\b[A-Z]{1,3}[-]?\d{3,5}[A-Z]?\b` at the current position, with the
backtracking order of the greedy quantifiers made explicit. -/
def equipML (prev : Option Char) (s : Str) : Option (Nat × Str) :=
  if isWordOpt prev then none
  else
    (quantCands 1 3 (upperRunLen s)).findSome? (fun l =>
      let s1 := s.drop l
      let dashOpts := if s1.head? = some '-' then [1, 0] else [0]
      dashOpts.findSome? (fun ds =>
        let s2 := s1.drop ds
        (quantCands 3 5 (digitRunLen s2)).findSome? (fun dn =>
          let s3 := s2.drop dn
          let tOpts := if (s3.head?.map isUpperAlpha).getD false then [1, 0] else [0]
          tOpts.findSome? (fun t =>
            let s4 := s3.drop t
            if isWordOpt s4.head? then none
            else some (l + ds + dn + t, s.take (l + ds + dn + t))))))

/-- Findall of the equipment-tag regex `r'\b[A-Z]{1,3}[-]?\d{3,5}[A-Z]?\b'`
(used in both `extract_equipment_info` and `analyze_pid_content`). -/
def equipmentMatches (text : Str) : List Str := scanAllG equipML none text

/-- First branch of the date pattern: one or two digits, a slash or dash,
one or two digits, a slash or dash, then two to four digits, with word
boundaries on both sides. -/
def dateBranch1 (s : Str) : Option Nat :=
  (quantCands 1 2 (digitRunLen s)).findSome? (fun a =>
    let s1 := s.drop a
    if s1.head? = some '/' ∨ s1.head? = some '-' then
      let s2 := s1.drop 1
      (quantCands 1 2 (digitRunLen s2)).findSome? (fun b =>
        let s3 := s2.drop b
        if s3.head? = some '/' ∨ s3.head? = some '-' then
          let s4 := s3.drop 1
          (quantCands 2 4 (digitRunLen s4)).findSome? (fun cc =>
            let s5 := s4.drop cc
            if isWordOpt s5.head? then none else some (a + 1 + b + 1 + cc))
        else none)
    else none)

/-- Second branch of the date pattern: four digits, a slash or dash, one or
two digits, a slash or dash, then one or two digits, with word boundaries on
both sides. -/
def dateBranch2 (s : Str) : Option Nat :=
  if 4 ≤ digitRunLen s then
    let s1 := s.drop 4
    if s1.head? = some '/' ∨ s1.head? = some '-' then
      let s2 := s1.drop 1
      (quantCands 1 2 (digitRunLen s2)).findSome? (fun b =>
        let s3 := s2.drop b
        if s3.head? = some '/' ∨ s3.head? = some '-' then
          let s4 := s3.drop 1
          (quantCands 1 2 (digitRunLen s4)).findSome? (fun cc =>
            let s5 := s4.drop cc
            if isWordOpt s5.head? then none else some (4 + 1 + b + 1 + cc))
        else none)
    else none
  else none

/-- The date pattern of `analyze_pid_content`, alternation tried left to
right. -/
def dateML (prev : Option Char) (s : Str) : Option (Nat × Str) :=
  if isWordOpt prev then none
  else
    match dateBranch1 s with
    | some n => some (n, s.take n)
    | none =>
      match dateBranch2 s with
      | some n => some (n, s.take n)
      | none => none

def dateMatches (text : Str) : List Str := scanAllG dateML none text

/-- Regex `\b\d+\.?\d*\s*(psi|bar|kpa|mpa)\b` at the current position; the
emitted value is the capture group (the unit), which is what `re.findall`
returns for a pattern with one group. The greedy `\d+ \.? \d* \s*` chain is
deterministic here because none of the unit literals starts with a digit,
dot, or space, so backtracking can never recover a failure. -/
def pressureML (prev : Option Char) (s : Str) : Option (Nat × Str) :=
  if isWordOpt prev then none
  else
    let d1 := digitRunLen s
    if d1 = 0 then none
    else
      let s1 := s.drop d1
      let dot := if s1.head? = some '.' then 1 else 0
      let s2 := s1.drop dot
      let d2 := digitRunLen s2
      let s3 := s2.drop d2
      let sp := spaceRunLen s3
      let s4 := s3.drop sp
      [str "psi", str "bar", str "kpa", str "mpa"].findSome? (fun u =>
        if List.isPrefixOf u s4 && !(isWordOpt ((s4.drop u.length).head?)) then
          some (d1 + dot + d2 + sp + u.length, u)
        else none)

def pressureMatches (text : Str) : List Str := scanAllG pressureML none text

/-- First branch `\b\d+\.?\d*\s*°?[cf]\b` of the temperature pattern. -/
def tempBranch1 (s : Str) : Option Nat :=
  let d1 := digitRunLen s
  if d1 = 0 then none
  else
    let s1 := s.drop d1
    let dot := if s1.head? = some '.' then 1 else 0
    let s2 := s1.drop dot
    let d2 := digitRunLen s2
    let s3 := s2.drop d2
    let sp := spaceRunLen s3
    let s4 := s3.drop sp
    let deg := if s4.head? = some '°' then 1 else 0
    let s5 := s4.drop deg
    match s5.head? with
    | some c =>
      if (c = 'c' ∨ c = 'f') && !(isWordOpt ((s5.drop 1).head?)) then
        some (d1 + dot + d2 + sp + deg + 1)
      else none
    | none => none

/-- Second branch `\b\d+\.?\d*\s*deg\s*[cf]\b` of the temperature pattern. -/
def tempBranch2 (s : Str) : Option Nat :=
  let d1 := digitRunLen s
  if d1 = 0 then none
  else
    let s1 := s.drop d1
    let dot := if s1.head? = some '.' then 1 else 0
    let s2 := s1.drop dot
    let d2 := digitRunLen s2
    let s3 := s2.drop d2
    let sp := spaceRunLen s3
    let s4 := s3.drop sp
    if List.isPrefixOf (str "deg") s4 then
      let s5 := s4.drop 3
      let sp2 := spaceRunLen s5
      let s6 := s5.drop sp2
      match s6.head? with
      | some c =>
        if (c = 'c' ∨ c = 'f') && !(isWordOpt ((s6.drop 1).head?)) then
          some (d1 + dot + d2 + sp + 3 + sp2 + 1)
        else none
      | none => none
    else none

/-- The temperature pattern (no groups: findall yields whole matches). -/
def tempML (prev : Option Char) (s : Str) : Option (Nat × Str) :=
  if isWordOpt prev then none
  else
    match tempBranch1 s with
    | some n => some (n, s.take n)
    | none =>
      match tempBranch2 s with
      | some n => some (n, s.take n)
      | none => none

def tempMatches (text : Str) : List Str := scanAllG tempML none text

/-- Regex `\b(CW|SW|IA|NA|NG|FG|STM)\b` (`extract_service_info`); findall
yields the group, which is the whole alternative. -/
def utilityML (prev : Option Char) (s : Str) : Option (Nat × Str) :=
  if isWordOpt prev then none
  else
    [str "CW", str "SW", str "IA", str "NA", str "NG", str "FG", str "STM"].findSome?
      (fun u =>
        if List.isPrefixOf u s && !(isWordOpt ((s.drop u.length).head?)) then
          some (u.length, u)
        else none)

def utilityMatches (text : Str) : List Str := scanAllG utilityML none text

/-! ## Notes extraction (`extract_enhanced_notes` family) -/

/-- The seven section patterns of `extract_enhanced_notes`:
`GENERAL\s+NOTES?:?`, `NOTES?:?`, `DESIGN\s+NOTES?:?`, `PROCESS\s+NOTES?:?`,
`OPERATING\s+NOTES?:?`, `SAFETY\s+NOTES?:?`, `MAINTENANCE\s+NOTES?:?`. -/
inductive NoteKind where
  | general | plain | design | process | operating | safety | maintenance
deriving DecidableEq, Repr

def noteKindWord : NoteKind → Option Str
  | .general => some (str "GENERAL")
  | .plain => none
  | .design => some (str "DESIGN")
  | .process => some (str "PROCESS")
  | .operating => some (str "OPERATING")
  | .safety => some (str "SAFETY")
  | .maintenance => some (str "MAINTENANCE")

/-- Case-insensitive literal prefix match, returning the rest on success. -/
def ciPrefix : Str → Str → Option Str
  | [], s => some s
  | _ :: _, [] => none
  | a :: w, c :: s => if toUpperChar c = toUpperChar a then ciPrefix w s else none

/-- Match length of a note pattern anchored at the current position
(`WORD \s+ NOTE S? :?` or `NOTE S? :?`, case-insensitive, all trailing parts
greedy — each optional piece is followed only by further optional pieces, so
the greedy choice is the regex semantics). -/
def tryNoteAt (k : NoteKind) (s : Str) : Option Nat :=
  let afterWord : Option Str :=
    match noteKindWord k with
    | none => some s
    | some w =>
      match ciPrefix w s with
      | none => none
      | some s1 =>
        let sp := spaceRunLen s1
        if sp = 0 then none else some (s1.drop sp)
  match afterWord with
  | none => none
  | some s2 =>
    match ciPrefix (str "NOTE") s2 with
    | none => none
    | some s3 =>
      let sTail := if (s3.head?.map (fun c => decide (toUpperChar c = 'S'))).getD false then 1 else 0
      let s4 := s3.drop sTail
      let col := if s4.head? = some ':' then 1 else 0
      some (s.length - (s4.drop col).length)

/-- Worker for `searchNote`: leftmost match, scanning position by position.
No note pattern can match the empty suffix (all require at least `NOTE`), so
the scan of an empty string yields nothing. -/
def searchNoteGo (k : NoteKind) : Str → Nat → Option (Nat × Nat)
  | [], _ => none
  | c :: rest, i =>
    match tryNoteAt k (c :: rest) with
    | some n => some (i, i + n)
    | none => searchNoteGo k rest (i + 1)

/-- Python `re.search(pattern, s, re.IGNORECASE)` for a note pattern:
start and end offsets of the leftmost match. -/
def searchNote (k : NoteKind) (s : Str) : Option (Nat × Nat) := searchNoteGo k s 0

/-- Regex `^[A-Z\s]+:$` via `re.match` (the stop test for section headers). -/
def reAllCapsColon (s : Str) : Bool :=
  decide (s.getLast? = some ':') && !s.dropLast.isEmpty &&
    s.dropLast.all (fun c => isUpperAlpha c || isSpaceChar c)

/-- Regex `^\d+\.\s*[A-Z]` via `re.match` (numbered-section stop test). -/
def reNumberedSectionStart (s : Str) : Bool :=
  let d := digitRunLen s
  if d = 0 then false
  else
    let s1 := s.drop d
    if s1.head? = some '.' then
      (((s1.drop 1).dropWhile isSpaceChar).head?.map isUpperAlpha).getD false
    else false

/-- Regex `^\d+\.\s+.+` via `re.match` (`extract_numbered_notes`): after the
digits and the dot there must be a whitespace character and at least two
characters in total (the backtrackable `\s+ .+` split). -/
def reNumberedNote (s : Str) : Bool :=
  let d := digitRunLen s
  if d = 0 then false
  else
    let s1 := s.drop d
    if s1.head? = some '.' then
      let s2 := s1.drop 1
      ((s2.head?.map isSpaceChar).getD false) && decide (2 ≤ s2.length)
    else false

/-- Regex `^[•\-\*]\s+.+` via `re.match` (`extract_bullet_notes`). -/
def reBulletNote (s : Str) : Bool :=
  match s with
  | c :: s1 =>
    (c = '•' || c = '-' || c = '*') && ((s1.head?.map isSpaceChar).getD false) &&
      decide (2 ≤ s1.length)
  | [] => false

/-- Stop test of `extract_notes_by_pattern` for a non-blank stripped line. -/
def stopLineNotes (ls : Str) : Bool :=
  reAllCapsColon ls || reNumberedSectionStart ls ||
  isInfixStr (str "SPECIFICATIONS") (pyUpper ls) ||
  isInfixStr (str "EQUIPMENT LIST") (pyUpper ls) ||
  isInfixStr (str "LEGEND") (pyUpper ls) ||
  isInfixStr (str "SYMBOLS") (pyUpper ls)

/-- Line loop of `extract_notes_by_pattern`: `capturing` state plus the
accumulated content lines; a stop line terminates the whole loop (`break`). -/
def notesByPatternLoop (k : NoteKind) : List Str → Bool → List Str → List Str
  | [], _, acc => acc
  | line :: rest, capturing, acc =>
    match searchNote k line with
    | some e =>
      let af := pyStrip (line.drop e.2)
      notesByPatternLoop k rest true (if af.isEmpty then acc else acc ++ [af])
    | none =>
      if capturing then
        let ls := pyStrip line
        if !ls.isEmpty && stopLineNotes ls then acc
        else if !ls.isEmpty then notesByPatternLoop k rest capturing (acc ++ [ls])
        else if !acc.isEmpty then notesByPatternLoop k rest capturing (acc ++ [[]])
        else notesByPatternLoop k rest capturing acc
      else notesByPatternLoop k rest capturing acc

/-- Python while-loop that pops trailing empty content lines. -/
def dropTrailingEmpty (l : List Str) : List Str :=
  (l.reverse.dropWhile List.isEmpty).reverse

/-- Python `extract_notes_by_pattern(text, pattern)`. -/
def extract_notes_by_pattern (text : Str) (k : NoteKind) : Str :=
  joinNL (dropTrailingEmpty (notesByPatternLoop k (splitLines text) false []))

/-- Python `extract_numbered_notes(text)`. -/
def extract_numbered_notes (text : Str) : Str :=
  joinNL (((splitLines text).map pyStrip).filter reNumberedNote)

/-- Python `extract_bullet_notes(text)`. -/
def extract_bullet_notes (text : Str) : Str :=
  joinNL (((splitLines text).map pyStrip).filter reBulletNote)

/-- Python `extract_enhanced_notes(text)`: for each pattern, capture a block
and, when non-empty, key it by the first whole-text match of the pattern with
colons removed, stripped and title-cased; then add numbered and bullet
notes. -/
def extract_enhanced_notes (text : Str) : List (Str × Str) :=
  let base := [NoteKind.general, NoteKind.plain, NoteKind.design, NoteKind.process,
      NoteKind.operating, NoteKind.safety, NoteKind.maintenance].foldl
    (fun acc k =>
      let notes_content := extract_notes_by_pattern text k
      if notes_content.isEmpty then acc
      else
        match searchNote k text with
        | none => acc
        | some e =>
          let clean_name :=
            pyTitle (pyStrip (((text.drop e.1).take (e.2 - e.1)).filter
              (fun c => decide (c ≠ ':'))))
          dictInsert acc clean_name notes_content) []
  let numbered := extract_numbered_notes text
  let base2 := if numbered.isEmpty then base
    else dictInsert base (str "Numbered Notes") numbered
  let bullets := extract_bullet_notes text
  if bullets.isEmpty then base2
  else dictInsert base2 (str "Bullet Point Notes") bullets

/-- Stop test of the fallback `extract_notes_section` (on the uppercased,
stripped line). -/
def sectionStopTest (lu : Str) : Bool :=
  startsWithStr (str "NOTES:") lu || startsWithStr (str "GENERAL NOTES:") lu ||
  startsWithStr (str "SPECIFICATIONS:") lu || startsWithStr (str "EQUIPMENT:") lu ||
  startsWithStr (str "SERVICE:") lu ||
  (!lu.isEmpty && pyIsUpper lu && decide (':' ∈ lu))

/-- Line loop of the fallback `extract_notes_section`. -/
def notesSectionLoop (sect : Str) : List Str → Bool → List Str → List Str
  | [], _, acc => acc
  | line :: rest, capturing, acc =>
    let lu := pyStrip (pyUpper line)
    if isInfixStr (pyUpper sect) lu && !capturing then
      notesSectionLoop sect rest true
        (if decide (sect.length < (pyStrip line).length) then acc ++ [pyStrip line] else acc)
    else if capturing && sectionStopTest lu && !(isInfixStr (pyUpper sect) lu) then acc
    else if capturing && !(pyStrip line).isEmpty then
      notesSectionLoop sect rest capturing (acc ++ [pyStrip line])
    else notesSectionLoop sect rest capturing acc

/-- Python `extract_notes_section(text, section_name)`. -/
def extract_notes_section (text sect : Str) : Str :=
  joinNL (notesSectionLoop sect (splitLines text) false [])

/-! ## Structural two-letter-four-number patterns -/

/-- Lexicographic string order by code point, exactly the Python `str`
comparison used by `sorted`. -/
def strLeb : Str → Str → Bool
  | [], _ => true
  | _ :: _, [] => false
  | a :: as, b :: bs => if a < b then true else if b < a then false else strLeb as bs

def StrLe (a b : Str) : Prop := strLeb a b = true

instance : DecidableRel StrLe := fun a b =>
  inferInstanceAs (Decidable (strLeb a b = true))

def valvePrefs : List Str := [str "PV", str "CV", str "FV", str "LV", str "TV"]

def instrumentPrefs : List Str := [str "PI", str "FI", str "TI", str "LI", str "AI"]

def transmitterPrefs : List Str := [str "PT", str "FT", str "TT", str "LT", str "AT"]

def controllerPrefs : List Str := [str "PC", str "FC", str "TC", str "LC", str "AC"]

/-- Category step of `extract_two_letter_four_number_patterns`. -/
def categorizeMatch (categorized : List (Str × List Str)) (m : Str) :
    List (Str × List Str) :=
  let pref := pyUpper (m.take 2)
  if pref ∈ valvePrefs then dictAppendList categorized (str "Valves") m
  else if pref ∈ instrumentPrefs then dictAppendList categorized (str "Instruments") m
  else if pref ∈ transmitterPrefs then dictAppendList categorized (str "Transmitters") m
  else if pref ∈ controllerPrefs then dictAppendList categorized (str "Controllers") m
  else dictAppendList categorized (str "Other Equipment") m

/-- Python `extract_two_letter_four_number_patterns(text)`.
Python computes `sorted(list(set(matches)))`; whatever enumeration order the
set iterator uses, `sorted` canonicalizes it to the unique ascending list of
the distinct matches, which is `List.insertionSort StrLe matches.dedup`. -/
def extract_two_letter_four_number_patterns (text : Str) : List (Str × Str) :=
  let ms := twoLetterFourNumberMatches text
  if ms.isEmpty then []
  else
    let unique_matches := List.insertionSort StrLe ms.dedup
    let d1 := dictInsert [] (str "Two Letter Four Number Patterns")
      (commaJoin unique_matches)
    let d2 := dictInsert d1 (str "Pattern Count") (natToStr unique_matches.length)
    let categorized := unique_matches.foldl categorizeMatch []
    categorized.foldl (fun acc p =>
      dictInsert acc (p.1 ++ str " (" ++ natToStr p.2.length ++ str ")")
        (commaJoin p.2)) d2

/-! ## Equipment and service extraction -/

def commonEquipment : List Str :=
  [str "pump", str "tank", str "valve", str "heat exchanger", str "reactor",
   str "compressor", str "separator", str "filter"]

/-- Python `extract_equipment_info(text)`. -/
def extract_equipment_info (text : Str) : List (Str × Str) :=
  let equipment_tags := equipmentMatches text
  let equipment_types :=
    (commonEquipment.filter (fun e => isInfixStr (pyLower e) (pyLower text))).map pyTitle
  let d1 :=
    if equipment_tags.isEmpty then []
    else dictInsert (dictInsert [] (str "Equipment Tags") (commaJoin equipment_tags.dedup))
      (str "Equipment Count") (natToStr equipment_tags.dedup.length)
  if equipment_types.isEmpty then d1
  else dictInsert d1 (str "Equipment Types") (commaJoin equipment_types.dedup)

def serviceKeywords : List Str :=
  [str "cooling water", str "steam", str "nitrogen", str "compressed air",
   str "instrument air", str "natural gas", str "fuel gas", str "electrical",
   str "hydraulic", str "pneumatic"]

/-- Python `extract_service_info(text)`. -/
def extract_service_info (text : Str) : List (Str × Str) :=
  let found_services :=
    (serviceKeywords.filter (fun s => isInfixStr (pyLower s) (pyLower text))).map pyTitle
  let d1 :=
    if found_services.isEmpty then []
    else dictInsert [] (str "Services") (commaJoin found_services.dedup)
  let utilities := utilityMatches text
  if utilities.isEmpty then d1
  else dictInsert d1 (str "Utility Codes") (commaJoin utilities.dedup)

/-! ## Document-level analysis (`analyze_pid_content`) -/

abbrev Table := List (List (Option Str))

def titleKeywords : List Str :=
  [str "drawing", str "title", str "diagram", str "process"]

/-- Title scan over the first 10 lines: first line containing a keyword whose
stripped form is longer than 5 characters. -/
def titleLineOf (lines : List Str) : Option Str :=
  ((lines.take 10).find? (fun line =>
    titleKeywords.any (fun k => isInfixStr k (pyLower line)) &&
    decide (5 < (pyStrip line).length))).map pyStrip

/-- Inner word loop of the revision scan: first word containing `rev` that has
a successor word; its successor is the revision. -/
def revFromWords : List Str → Option Str
  | w :: next :: rest =>
    if isInfixStr (str "rev") (pyLower w) then some next
    else revFromWords (next :: rest)
  | _ => none

/-- Revision scan: only the first line containing `rev` (or `revision`, which
is subsumed) is examined. -/
def revisionOf (lines : List Str) : Option Str :=
  match lines.find? (fun line =>
      isInfixStr (str "rev") (pyLower line) || isInfixStr (str "revision") (pyLower line)) with
  | none => none
  | some line => revFromWords (splitWs line)

/-- Python `analyze_pid_content` up to (but excluding) the three fixed
bookkeeping assignments at its end; `datetime.now()` appears only in those,
so this part is a pure function of `text` and `tables`. -/
def analyzeCore (text : Str) (tables : List Table) : List (Str × Str) :=
  let lines := splitLines text
  let pattern_data := extract_two_letter_four_number_patterns text
  let d1 := if pattern_data.isEmpty then [] else pyUpdate [] pattern_data
  let notes_data := extract_enhanced_notes text
  let d2 := if notes_data.isEmpty then d1 else pyUpdate d1 notes_data
  let d3 :=
    if notes_data.isEmpty then
      let general_notes := extract_notes_section text (str "GENERAL NOTES")
      let d2a := if general_notes.isEmpty then d2
        else dictInsert d2 (str "GENERAL NOTES") general_notes
      let notes := extract_notes_section text (str "NOTES")
      if notes.isEmpty then d2a else dictInsert d2a (str "NOTES") notes
    else d2
  let equipment_info := extract_equipment_info text
  let d4 := if equipment_info.isEmpty then d3 else pyUpdate d3 equipment_info
  let service_info := extract_service_info text
  let d5 := if service_info.isEmpty then d4 else pyUpdate d4 service_info
  let d6 := match titleLineOf lines with
    | none => d5
    | some t => dictInsert d5 (str "Document Title") t
  let d7 := match revisionOf lines with
    | none => d6
    | some r => dictInsert d6 (str "Revision") r
  let d8 := match (dateMatches text).head? with
    | none => d7
    | some dt => dictInsert d7 (str "Document Date") dt
  let equipment_tags := equipmentMatches text
  let d9 := if equipment_tags.isEmpty then d8
    else dictInsert
      (dictInsert d8 (str "Equipment Count") (natToStr equipment_tags.dedup.length))
      (str "Sample Equipment Tags") (commaJoin (equipment_tags.dedup.take 5))
  let pressures := pressureMatches (pyLower text)
  let d10 := if pressures.isEmpty then d9
    else dictInsert d9 (str "Pressure Ratings Found") (commaJoin (pressures.take 3))
  let temperatures := tempMatches (pyLower text)
  let d11 := if temperatures.isEmpty then d10
    else dictInsert d10 (str "Temperature Ratings Found") (commaJoin (temperatures.take 3))
  if tables.isEmpty then d11
  else
    let d12 := dictInsert d11 (str "Tables Found") (natToStr tables.length)
    match tables with
    | [] => d12
    | t0 :: _ =>
      if t0.isEmpty then d12
      else
        let headers := if (t0.headD []).isEmpty then [] else t0.headD []
        dictInsert d12 (str "Table Headers")
          (commaJoin (headers.filterMap (fun h =>
            match h with
            | some s => if s.isEmpty then none else some s
            | none => none)))

/-- Python `analyze_pid_content(text, tables)` with the
`datetime.now().strftime(...)` reading passed in as `now`. -/
def analyze_pid_content (text : Str) (tables : List Table) (now : Str) :
    List (Str × Str) :=
  dictInsert (dictInsert (dictInsert (analyzeCore text tables)
    (str "Document Type") (str "Process & Instrumentation Diagram"))
    (str "Status") (str "Uploaded"))
    (str "Processing Date") now


/-! ## Concrete documents used in counterexamples -/

/-- A text containing 21 distinct equipment-shaped tags. -/
def ceText21 : Str := str "AB100 AB101 AB102 AB103 AB104 AB105 AB106 AB107 AB108 AB109 AB110 AB111 AB112 AB113 AB114 AB115 AB116 AB117 AB118 AB119 AB120"

/-- A vocabulary whose only file has an empty (but present) instrument list:
the first repair pass deletes the file yet leaves the empty instrument entry
behind, and the recorded path no longer blocks reprocessing. -/
def dRep : VocabData :=
  ⟨[(str "file_1", ⟨str "doc.pdf", str "U", 0⟩)], [(str "file_1", [])], [], []⟩

/-- A repair-stable vocabulary state in which an earlier deletion left only
the key `file_2`: the size-based key counter then re-assigns `file_2`. -/
def dSave : VocabData :=
  ⟨[(str "file_2", ⟨str "a.pdf", str "U", 1⟩)],
   [(str "file_2", [⟨str "U-PT-1001", str "PT-1001", str "PT", [], []⟩])], [], []⟩

/-- A vocabulary state that survives repair intact, used to witness the
already-processed fast path. -/
def dOk : VocabData :=
  ⟨[(str "file_1", ⟨str "doc.pdf", str "U", 1⟩)],
   [(str "file_1", [⟨str "U-PT-1001", str "PT-1001", str "PT", [], []⟩])], [], []⟩

/-! ## Helper lemmas -/

theorem reAcronym_length {w : Str} (h : reAcronym w = true) :
    0 < w.length ∧ w.length ≤ 6 := by
  unfold reAcronym at h
  simp only [Bool.and_eq_true, decide_eq_true_eq] at h
  exact ⟨h.1.1, h.1.2⟩

theorem extractTagsLoop_fst (nt : List Str) :
    ∀ (l lt : List Str), (extractTagsLoop nt lt l).1 = emittedTags l nt
  | [], _ => rfl
  | [_], _ => rfl
  | w :: next :: rest, lt => by
    have ih : ∀ lt', (extractTagsLoop nt lt' (next :: rest)).1
        = emittedTags (next :: rest) nt :=
      fun lt' => extractTagsLoop_fst nt (next :: rest) lt'
    have hz : emittedTags (w :: next :: rest) nt =
        (if reAcronym w ∧ ¬ w ∈ nt ∧ reIdTag next
         then [w ++ '-' :: next] else []) ++ emittedTags (next :: rest) nt := by
      unfold emittedTags
      simp only [List.tail_cons, List.zip_cons_cons, List.filterMap_cons]
      by_cases hc : reAcronym w ∧ ¬ w ∈ nt ∧ reIdTag next
      · rw [if_pos hc, if_pos hc]
        rfl
      · rw [if_neg hc, if_neg hc]
        rfl
    rw [hz]
    by_cases h1 : 0 < w.length ∧ w.length ≤ 6
    · by_cases h2 : reAcronym w = true ∧ ¬ w ∈ nt
      · by_cases h3 : reIdTag next = true
        · simp only [extractTagsLoop, if_pos h1, if_pos h2, if_pos h3]
          by_cases h4 : w ∈ lt
          · simp [if_pos h4, ih, h2.1, h2.2, h3]
          · simp [if_neg h4, ih, h2.1, h2.2, h3]
        · simp only [extractTagsLoop, if_pos h1, if_pos h2, if_neg h3]
          have : ¬ (reAcronym w ∧ ¬ w ∈ nt ∧ reIdTag next) := by
            intro hc
            exact h3 hc.2.2
          simp [if_neg this, ih]
      · simp only [extractTagsLoop, if_pos h1, if_neg h2]
        have : ¬ (reAcronym w ∧ ¬ w ∈ nt ∧ reIdTag next) := by
          intro hc
          exact h2 ⟨hc.1, hc.2.1⟩
        simp [if_neg this, ih]
    · simp only [extractTagsLoop, if_neg h1]
      have : ¬ (reAcronym w ∧ ¬ w ∈ nt ∧ reIdTag next) := by
        intro hc
        exact h1 (reAcronym_length hc.1)
      simp [if_neg this, ih]

theorem mem_emittedTags {x : Str} {l nt : List Str} (h : x ∈ emittedTags l nt) :
    ∃ a b, x = a ++ '-' :: b ∧ reAcronym a = true ∧ ¬ a ∈ nt ∧ reIdTag b = true := by
  unfold emittedTags at h
  obtain ⟨p, _, hp⟩ := List.mem_filterMap.mp h
  by_cases hc : reAcronym p.1 ∧ ¬ p.1 ∈ nt ∧ reIdTag p.2
  · rw [if_pos hc] at hp
    exact ⟨p.1, p.2, (Option.some.inj hp).symm, hc.1, hc.2.1, hc.2.2⟩
  · rw [if_neg hc] at hp
    exact absurd hp (by simp)

theorem splitOnDash_append (a b : Str) (h : ∀ c ∈ a, c ≠ '-') :
    splitOnDash (a ++ '-' :: b) = a :: splitOnDash b := by
  induction a with
  | nil => simp [splitOnDash]
  | cons c a ih =>
    have hc : c ≠ '-' := h c (List.mem_cons_self c a)
    have ih' := ih (fun d hd => h d (List.mem_cons_of_mem c hd))
    simp only [List.cons_append, splitOnDash, if_neg hc]
    simp only [List.append_eq]
    rw [ih']

theorem splitDashHead_append (a b : Str) (h : ∀ c ∈ a, c ≠ '-') :
    splitDashHead (a ++ '-' :: b) = a := by
  unfold splitDashHead
  rw [splitOnDash_append a b h]
  rfl

theorem reAcronym_no_dash {a : Str} (h : reAcronym a = true) : ∀ c ∈ a, c ≠ '-' := by
  unfold reAcronym at h
  simp only [Bool.and_eq_true, List.all_eq_true] at h
  intro c hc he
  have := h.2 c hc
  rw [he] at this
  exact absurd this (by decide)

/-! ## Dictionary lemmas -/

theorem lookupA_append {α : Type} (m m' : List (Str × α)) (k : Str) :
    lookupA (m ++ m') k =
      match lookupA m k with
      | some w => some w
      | none => lookupA m' k := by
  induction m with
  | nil => rfl
  | cons q rest ih =>
    simp only [List.cons_append, lookupA, List.append_eq]
    by_cases hq : q.1 = k
    · rw [if_pos hq, if_pos hq]
    · rw [if_neg hq, if_neg hq, ih]

theorem lookupA_eq_none_of_not_any {α : Type} {m : List (Str × α)} {k : Str}
    (h : m.any (fun p => decide (p.1 = k)) = false) : lookupA m k = none := by
  induction m with
  | nil => rfl
  | cons q rest ih =>
    simp only [List.any_cons, Bool.or_eq_false_iff] at h
    simp only [lookupA, if_neg (of_decide_eq_false h.1)]
    exact ih h.2

theorem lookupA_mapReplace {α : Type} (m : List (Str × α)) (k : Str) (v : α) :
    lookupA (m.map (fun p => if p.1 = k then (k, v) else p)) k =
      if m.any (fun p => decide (p.1 = k)) then some v else none := by
  induction m with
  | nil => rfl
  | cons q rest ih =>
    by_cases hq : q.1 = k
    · simp only [List.map_cons, if_pos hq, lookupA, if_pos rfl, List.any_cons,
        decide_eq_true hq, Bool.true_or, if_true]
    · simp only [List.map_cons, if_neg hq, lookupA, if_neg hq, List.any_cons,
        decide_eq_false hq, Bool.false_or]
      exact ih

theorem lookupA_mapReplace_ne {α : Type} (m : List (Str × α)) (k k' : Str) (v : α)
    (hne : k' ≠ k) :
    lookupA (m.map (fun p => if p.1 = k' then (k', v) else p)) k = lookupA m k := by
  induction m with
  | nil => rfl
  | cons q rest ih =>
    by_cases hq : q.1 = k'
    · simp only [List.map_cons, if_pos hq, lookupA, if_neg hne,
        if_neg (show ¬ q.1 = k by rw [hq]; exact hne)]
      exact ih
    · simp only [List.map_cons, if_neg hq, lookupA]
      by_cases hqk : q.1 = k
      · rw [if_pos hqk, if_pos hqk]
      · rw [if_neg hqk, if_neg hqk]
        exact ih

theorem lookupA_dictInsert_self {α : Type} (m : List (Str × α)) (k : Str) (v : α) :
    lookupA (dictInsert m k v) k = some v := by
  unfold dictInsert
  by_cases h : m.any (fun p => decide (p.1 = k))
  · rw [if_pos h, lookupA_mapReplace, if_pos h]
  · rw [if_neg h, lookupA_append,
      lookupA_eq_none_of_not_any (Bool.not_eq_true _ ▸ h)]
    simp [lookupA]

theorem lookupA_dictInsert_ne {α : Type} (m : List (Str × α)) (k k' : Str) (v : α)
    (hne : k' ≠ k) : lookupA (dictInsert m k' v) k = lookupA m k := by
  unfold dictInsert
  by_cases h : m.any (fun p => decide (p.1 = k'))
  · rw [if_pos h]
    exact lookupA_mapReplace_ne m k k' v hne
  · rw [if_neg h, lookupA_append]
    cases hm : lookupA m k with
    | some w => rfl
    | none => simp [lookupA, if_neg hne]

theorem filterNe_mapReplace {α : Type} (m : List (Str × α)) (k : Str) (v : α) :
    (m.map (fun p => if p.1 = k then (k, v) else p)).filter (fun p => decide (p.1 ≠ k))
      = m.filter (fun p => decide (p.1 ≠ k)) := by
  induction m with
  | nil => rfl
  | cons q rest ih =>
    by_cases hq : q.1 = k
    · simp only [List.map_cons, if_pos hq, List.filter_cons]
      rw [decide_eq_false (show ¬ ((k, v).1 ≠ k) by simp),
        decide_eq_false (show ¬ (q.1 ≠ k) by simp [hq])]
      exact ih
    · simp only [List.map_cons, if_neg hq, List.filter_cons]
      rw [decide_eq_true (show q.1 ≠ k from hq)]
      simp only [ih]

theorem eraseKeyAll_dictInsert_self {α : Type} (m : List (Str × α)) (k : Str) (v : α) :
    eraseKeyAll (dictInsert m k v) k = eraseKeyAll m k := by
  unfold dictInsert eraseKeyAll
  by_cases h : m.any (fun p => decide (p.1 = k))
  · rw [if_pos h]
    exact filterNe_mapReplace m k v
  · rw [if_neg h, List.filter_append]
    simp

theorem any_key_eq_true_iff {α : Type} (m : List (Str × α)) (k : Str) :
    m.any (fun p => decide (p.1 = k)) = true ↔ k ∈ m.map Prod.fst := by
  rw [List.any_eq_true]
  constructor
  · rintro ⟨p, hp, hk⟩
    exact List.mem_map.mpr ⟨p, hp, of_decide_eq_true hk⟩
  · rintro h
    obtain ⟨p, hp, hk⟩ := List.mem_map.mp h
    exact ⟨p, hp, decide_eq_true hk⟩

/-! ## Claim C3: tag-candidate emission -/

/-- C3. For every token list and false-positive set, the extractor emits the
combined tag `ACRONYM-IDTAG` exactly for each adjacent pair whose first token
fully matches the one-to-six-uppercase-letters acronym shape and is not a
false positive and whose second token fully matches the four-digits-plus-
optional-uppercase-letter id shape, in document order with duplicates kept;
on the six-token demonstration sequence with an empty false-positive set the
candidate list is exactly the single tag PT-1001. -/
theorem tag_candidates_characterization :
    (∀ (text_list not_tags list_tags : List Str),
      (extract_possible_tags text_list not_tags list_tags).1
        = emittedTags text_list not_tags)
    ∧ (extract_possible_tags
        [str "PT", str "1001", str "measures", str "pressure", str "INVALID", str "9999"]
        [] []).1 = [str "PT-1001"] :=
  ⟨fun l nt lt => extractTagsLoop_fst nt l lt, by decide⟩

/-! ## Claim C10: the post-filter is the identity on freshly emitted tags -/

/-- C10. Applying `clean_final_tags` with the same false-positive set that the
scan consulted removes nothing: every emitted tag splits at its first dash
back into its acronym, which the scan already checked against the set. -/
theorem post_filter_identity (text_list lt : List Str) (d : VocabData) :
    clean_final_tags (extract_possible_tags text_list d.not_tags lt).1 d
      = (extract_possible_tags text_list d.not_tags lt).1 := by
  rw [show (extract_possible_tags text_list d.not_tags lt).1
      = emittedTags text_list d.not_tags
    from extractTagsLoop_fst d.not_tags text_list lt]
  unfold clean_final_tags
  apply List.filter_eq_self.mpr
  intro tag htag
  obtain ⟨a, b, rfl, hacr, hnin, _⟩ := mem_emittedTags htag
  rw [splitDashHead_append a b (reAcronym_no_dash hacr)]
  exact decide_eq_true hnin

/-! ## Claim C4: notes capture on the demonstration text -/

/-- C4. On the text GENERAL NOTES:, Foo, Bar, blank line, SPECIFICATIONS:,
Baz (newline separated), the enhanced notes extractor produces a General
Notes field equal to Foo-newline-Bar: capture starts at the keyword line, the
SPECIFICATIONS stop line is excluded, the internal blank line is kept during
capture but trimmed as a trailing blank, and the key is the title-cased
keyword with the colon stripped. -/
theorem general_notes_capture :
    lookupA (extract_enhanced_notes (str "GENERAL NOTES:\nFoo\nBar\n\nSPECIFICATIONS:\nBaz"))
      (str "General Notes") = some (str "Foo\nBar") := by decide

/-! ## Claim C5: empty input yields only the bookkeeping fields -/

/-- C5. Analysis of empty text with an empty table list never throws and
returns exactly the three fixed bookkeeping fields: the document-type
default, the processing status, and the processing timestamp, in that order,
and nothing else. -/
theorem analyze_empty_bookkeeping (now : Str) :
    analyze_pid_content (str "") [] now =
      [(str "Document Type", str "Process & Instrumentation Diagram"),
       (str "Status", str "Uploaded"),
       (str "Processing Date", now)] := rfl

/-! ## Claim C8: analysis is deterministic only modulo the timestamp -/

/-- C8 counterexample. Two calls of `analyze_pid_content` with identical text
and identical tables but different clock readings return different field
mappings, so the function is not a deterministic function of text and tables
alone. -/
theorem analyze_clock_dependent_ce :
    analyze_pid_content (str "") [] (str "2024-01-01 00:00:00")
      ≠ analyze_pid_content (str "") [] (str "2024-01-01 00:00:01") := by decide

/-- C8 amended. `analyze_pid_content` is a deterministic function of text,
tables and the clock reading; outside the Processing Date binding its output
does not depend on the clock at all, and the Processing Date field always
holds the clock reading of the call. -/
theorem analyze_deterministic_modulo_timestamp (text : Str) (tables : List Table)
    (t₁ t₂ : Str) :
    eraseKeyAll (analyze_pid_content text tables t₁) (str "Processing Date")
      = eraseKeyAll (analyze_pid_content text tables t₂) (str "Processing Date")
    ∧ lookupA (analyze_pid_content text tables t₁) (str "Processing Date") = some t₁ := by
  constructor
  · unfold analyze_pid_content
    rw [eraseKeyAll_dictInsert_self, eraseKeyAll_dictInsert_self]
  · unfold analyze_pid_content
    rw [lookupA_dictInsert_self]

/-! ## Claim C7: equipment info is deduplicated but neither sorted nor capped -/

/-- C7 counterexample. On a text with 21 distinct equipment-shaped tags the
Equipment Tags display field joins all 21 deduplicated matches: there is no
cap at 20 items. -/
theorem equipment_tags_uncapped_ce :
    lookupA (extract_equipment_info ceText21) (str "Equipment Tags")
      = some (commaJoin (equipmentMatches ceText21).dedup)
    ∧ (equipmentMatches ceText21).dedup.length = 21 ∧ ¬ (21 ≤ 20) :=
  ⟨by decide, by decide, by decide⟩

/-- C7 amended. The equipment-information step deduplicates the equipment-tag
regex matches (each distinct match kept exactly once, none dropped) and joins
them all for display without sorting or any 20-item cap, while the separate
sample field of `analyze_pid_content` takes at most 5 items. -/
theorem equipment_info_dedup_sample (text : Str) :
    (equipmentMatches text).dedup.Nodup
    ∧ (∀ x, x ∈ (equipmentMatches text).dedup ↔ x ∈ equipmentMatches text)
    ∧ ((equipmentMatches text).dedup.take 5).length ≤ 5
    ∧ ((equipmentMatches text).isEmpty = false →
        lookupA (extract_equipment_info text) (str "Equipment Tags")
          = some (commaJoin (equipmentMatches text).dedup)) := by
  refine ⟨List.nodup_dedup _, fun x => List.mem_dedup, ?_, ?_⟩
  · rw [List.length_take]
    exact min_le_left _ _
  · intro h
    unfold extract_equipment_info
    have hne : ¬ ((equipmentMatches text).isEmpty = true) := by
      rw [h]
      exact Bool.false_ne_true
    by_cases ht : ((commonEquipment.filter
        (fun e => isInfixStr (pyLower e) (pyLower text))).map pyTitle).isEmpty = true
    · rw [if_pos ht, if_neg hne,
        lookupA_dictInsert_ne _ _ _ _ (by decide), lookupA_dictInsert_self]
    · rw [if_neg ht, if_neg hne,
        lookupA_dictInsert_ne _ _ _ _ (by decide),
        lookupA_dictInsert_ne _ _ _ _ (by decide),
        lookupA_dictInsert_self]

/-- C7 witness. A concrete nonempty-match instantiation of the amended
statement. -/
theorem equipment_info_dedup_sample_witness :
    (equipmentMatches (str "AB100 CD200")).isEmpty = false
    ∧ lookupA (extract_equipment_info (str "AB100 CD200")) (str "Equipment Tags")
      = some (commaJoin (equipmentMatches (str "AB100 CD200")).dedup) :=
  ⟨by decide, (equipment_info_dedup_sample (str "AB100 CD200")).2.2.2 (by decide)⟩

/-! ## Claim C9: size-based file keys collide after deletions -/

/-- C9 counterexample. In the state whose only file key is file_2 (left by an
earlier deletion of file_1), the store assigns the key file_2 again — the
assigned key already exists, and the existing entry is overwritten in place
(the file count does not grow). -/
theorem file_key_collision_ce :
    (save_pdf_data dSave (str "b.pdf") [str "PT-1001"]).2 = str "file_2"
    ∧ str "file_2" ∈ dSave.files_pid.map Prod.fst
    ∧ (save_pdf_data dSave (str "b.pdf") [str "PT-1001"]).1.files_pid.length
        = dSave.files_pid.length :=
  ⟨by decide, by decide, by decide⟩

/-- C9 amended. The store always assigns the key file_n with n the current
number of file entries plus one; that key is new only when no existing key
equals it (in particular when the keys are exactly file_1 through
file_count), in which case the new entry is appended; after deletions the
size-based key can collide with an existing key. -/
theorem save_pdf_key_assignment (d : VocabData) (fn : Str) (tags : List Str) :
    (save_pdf_data d fn tags).2 = str "file_" ++ natToStr (d.files_pid.length + 1)
    ∧ (¬ (str "file_" ++ natToStr (d.files_pid.length + 1)) ∈ d.files_pid.map Prod.fst →
        ∃ e, (save_pdf_data d fn tags).1.files_pid
          = d.files_pid ++ [(str "file_" ++ natToStr (d.files_pid.length + 1), e)]) := by
  constructor
  · rfl
  · intro h
    refine ⟨⟨fn, (match splitOnDash fn with
      | _ :: u :: _ => u
      | _ => str "UNKNOWN"), tags.length⟩, ?_⟩
    show dictInsert d.files_pid (str "file_" ++ natToStr (d.files_pid.length + 1)) _
      = d.files_pid ++ [(str "file_" ++ natToStr (d.files_pid.length + 1), _)]
    unfold dictInsert
    rw [if_neg (fun hc => h ((any_key_eq_true_iff _ _).mp hc))]

/-- C9 witness. In a gap-free state the assigned key is fresh and the entry
is appended. -/
theorem save_pdf_key_assignment_witness :
    ¬ (str "file_" ++ natToStr (dOk.files_pid.length + 1)) ∈ dOk.files_pid.map Prod.fst
    ∧ ∃ e, (save_pdf_data dOk (str "x.pdf") [str "FT-2002"]).1.files_pid
      = dOk.files_pid ++ [(str "file_" ++ natToStr (dOk.files_pid.length + 1), e)] :=
  ⟨by decide, (save_pdf_key_assignment dOk (str "x.pdf") [str "FT-2002"]).2 (by decide)⟩

/-! ## Claim C2: the already-processed check runs on the repaired store -/

/-- C2 counterexample. A filename recorded in the stored vocabulary does not
guarantee the already-processed fast path: when the recording entry has an
empty instrument list, the repair pass run at the start of
`process_pdf_for_tags` deletes it, the call reprocesses the file with status
success, and the persisted vocabulary changes. -/
theorem process_reprocesses_cleared_record_ce :
    (∃ p ∈ dRep.files_pid, str "doc.pdf" = p.2.path)
    ∧ (process_pdf_for_tags dRep (str "doc.pdf") [str "PT", str "1001"]).1.status
        ≠ str "already_processed"
    ∧ (process_pdf_for_tags dRep (str "doc.pdf") [str "PT", str "1001"]).2.2 = true
    ∧ (process_pdf_for_tags dRep (str "doc.pdf") [str "PT", str "1001"]).2.1 ≠ dRep :=
  ⟨by decide, by decide, by decide, by decide⟩

/-- C2 amended. Whenever the filename is recorded in the vocabulary as it
stands after the repair pass (exact string match against stored paths), the
call reports already_processed, performs no write, and the persisted
vocabulary is unchanged. -/
theorem process_already_recorded_noop (store : VocabData) (filename : Str)
    (text_list : List Str)
    (h : ∃ p ∈ (repair_data_structure store).1.files_pid, filename = p.2.path) :
    (process_pdf_for_tags store filename text_list).1.status = str "already_processed"
    ∧ (process_pdf_for_tags store filename text_list).2.1 = store
    ∧ (process_pdf_for_tags store filename text_list).2.2 = false := by
  have hany : (repair_data_structure store).1.files_pid.any
      (fun p => decide (filename = p.2.path)) = true := by
    obtain ⟨p, hp, he⟩ := h
    exact List.any_eq_true.mpr ⟨p, hp, decide_eq_true he⟩
  unfold process_pdf_for_tags
  rw [if_pos hany]
  exact ⟨rfl, rfl, rfl⟩

/-- C2 witness. A vocabulary that survives repair intact takes the
already-processed fast path. -/
theorem process_already_recorded_noop_witness :
    (∃ p ∈ (repair_data_structure dOk).1.files_pid, str "doc.pdf" = p.2.path)
    ∧ (process_pdf_for_tags dOk (str "doc.pdf") [str "PT", str "1001"]).1.status
        = str "already_processed"
    ∧ (process_pdf_for_tags dOk (str "doc.pdf") [str "PT", str "1001"]).2.1 = dOk
    ∧ (process_pdf_for_tags dOk (str "doc.pdf") [str "PT", str "1001"]).2.2 = false :=
  ⟨by decide,
   (process_already_recorded_noop dOk (str "doc.pdf") [str "PT", str "1001"] (by decide)).1,
   (process_already_recorded_noop dOk (str "doc.pdf") [str "PT", str "1001"] (by decide)).2.1,
   (process_already_recorded_noop dOk (str "doc.pdf") [str "PT", str "1001"] (by decide)).2.2⟩

/-! ## Claim C6: the structural-pattern field is canonical -/

theorem strLeb_total : ∀ (a b : Str), strLeb a b = true ∨ strLeb b a = true
  | [], _ => Or.inl rfl
  | _ :: _, [] => Or.inr rfl
  | a :: as, b :: bs => by
    simp only [strLeb]
    rcases lt_trichotomy a b with h | h | h
    · left
      rw [if_pos h]
    · subst h
      simp only [if_neg (lt_irrefl a)]
      exact strLeb_total as bs
    · right
      rw [if_pos h]

theorem strLeb_trans : ∀ (a b c : Str),
    strLeb a b = true → strLeb b c = true → strLeb a c = true
  | [], _, _, _, _ => rfl
  | _ :: _, [], _, h1, _ => absurd h1 (by simp [strLeb])
  | _ :: _, _ :: _, [], _, h2 => absurd h2 (by simp [strLeb])
  | a :: as, b :: bs, c :: cs, h1, h2 => by
    simp only [strLeb] at h1 h2 ⊢
    by_cases hab : a < b
    · by_cases hbc : b < c
      · rw [if_pos (lt_trans hab hbc)]
      · rw [if_neg hbc] at h2
        by_cases hcb : c < b
        · rw [if_pos hcb] at h2
          exact absurd h2 Bool.false_ne_true
        · have he : b = c := le_antisymm (le_of_not_lt hcb) (le_of_not_lt hbc)
          subst he
          rw [if_pos hab]
    · by_cases hba : b < a
      · rw [if_neg hab, if_pos hba] at h1
        exact absurd h1 Bool.false_ne_true
      · have he : a = b := le_antisymm (le_of_not_lt hba) (le_of_not_lt hab)
        subst he
        rw [if_neg (lt_irrefl a)] at h1
        rw [if_neg (lt_irrefl a)] at h1
        by_cases hac : a < c
        · rw [if_pos hac]
        · rw [if_neg hac] at h2 ⊢
          by_cases hca : c < a
          · rw [if_pos hca] at h2
            exact absurd h2 Bool.false_ne_true
          · rw [if_neg hca] at h2 ⊢
            exact strLeb_trans as bs cs h1 h2

theorem strLeb_antisymm : ∀ (a b : Str),
    strLeb a b = true → strLeb b a = true → a = b
  | [], [], _, _ => rfl
  | [], _ :: _, _, h2 => absurd h2 (by simp [strLeb])
  | _ :: _, [], h1, _ => absurd h1 (by simp [strLeb])
  | a :: as, b :: bs, h1, h2 => by
    simp only [strLeb] at h1 h2
    by_cases hab : a < b
    · rw [if_neg (asymm hab), if_pos hab] at h2
      exact absurd h2 Bool.false_ne_true
    · by_cases hba : b < a
      · rw [if_neg hab, if_pos hba] at h1
        exact absurd h1 Bool.false_ne_true
      · have he : a = b := le_antisymm (le_of_not_lt hba) (le_of_not_lt hab)
        subst he
        rw [if_neg (lt_irrefl a)] at h1
        rw [if_neg (lt_irrefl a)] at h1
        rw [strLeb_antisymm as bs h1 (by
          rw [if_neg (lt_irrefl a)] at h2
          rw [if_neg (lt_irrefl a)] at h2
          exact h2)]

instance : IsTotal Str StrLe := ⟨fun a b => strLeb_total a b⟩

instance : IsTrans Str StrLe := ⟨fun a b c => strLeb_trans a b c⟩

instance : IsAntisymm Str StrLe := ⟨fun a b => strLeb_antisymm a b⟩

/-- Permuting the raw match list leaves the sorted deduplicated list
unchanged (sorting is canonical for an antisymmetric total order). -/
theorem sortedDedup_eq_of_perm {m₁ m₂ : List Str} (h : m₁.Perm m₂) :
    List.insertionSort StrLe m₁.dedup = List.insertionSort StrLe m₂.dedup :=
  List.eq_of_perm_of_sorted
    (((List.perm_insertionSort StrLe m₁.dedup).trans h.dedup).trans
      (List.perm_insertionSort StrLe m₂.dedup).symm)
    (List.sorted_insertionSort StrLe m₁.dedup)
    (List.sorted_insertionSort StrLe m₂.dedup)

/-- Category keys all contain an open parenthesis, so the fold that inserts
them never disturbs the binding of a parenthesis-free key. -/
theorem lookupA_foldl_parenKeys (K : Str) (hK : ¬ '(' ∈ K) :
    ∀ (ps : List (Str × List Str)) (d : List (Str × Str)),
      lookupA (ps.foldl (fun acc p =>
        dictInsert acc (p.1 ++ str " (" ++ natToStr p.2.length ++ str ")")
          (commaJoin p.2)) d) K
      = lookupA d K
  | [], _ => rfl
  | p :: ps, d => by
    rw [List.foldl_cons, lookupA_foldl_parenKeys K hK ps _]
    apply lookupA_dictInsert_ne
    intro he
    apply hK
    rw [← he]
    have hp : '(' ∈ str " (" := by decide
    simp [List.mem_append, hp]

/-- The Two Letter Four Number Patterns binding, for every text. -/
theorem tlfn_lookup (text : Str) :
    lookupA (extract_two_letter_four_number_patterns text)
        (str "Two Letter Four Number Patterns")
      = if (twoLetterFourNumberMatches text).isEmpty
        then none
        else some (commaJoin
          (List.insertionSort StrLe (twoLetterFourNumberMatches text).dedup)) := by
  unfold extract_two_letter_four_number_patterns
  by_cases h : (twoLetterFourNumberMatches text).isEmpty = true
  · rw [if_pos h, if_pos h]
    rfl
  · rw [if_neg h, if_neg h,
      lookupA_foldl_parenKeys _ (by decide) _ _,
      lookupA_dictInsert_ne _ _ _ _ (by decide)]
    exact lookupA_dictInsert_self _ _ _

/-- C6. The Two Letter Four Number Patterns field is the comma-join of the
sorted list of distinct match strings, deduplicated by exact string equality
only — so any two texts whose raw match lists are permutations of each other
render the identical field, and matches differing only in letter case are
each kept (demonstrated on the duplicated-match text). -/
theorem tlfn_field_canonical :
    (∀ t : Str, (twoLetterFourNumberMatches t).isEmpty = false →
      lookupA (extract_two_letter_four_number_patterns t)
          (str "Two Letter Four Number Patterns")
        = some (commaJoin
            (List.insertionSort StrLe (twoLetterFourNumberMatches t).dedup)))
    ∧ (∀ t₁ t₂ : Str,
      (twoLetterFourNumberMatches t₁).Perm (twoLetterFourNumberMatches t₂) →
      lookupA (extract_two_letter_four_number_patterns t₁)
          (str "Two Letter Four Number Patterns")
        = lookupA (extract_two_letter_four_number_patterns t₂)
            (str "Two Letter Four Number Patterns"))
    ∧ lookupA (extract_two_letter_four_number_patterns (str "AB1234 ab1234 AB1234"))
        (str "Two Letter Four Number Patterns") = some (str "AB1234, ab1234") := by
  refine ⟨?_, ?_, ?_⟩
  · intro t ht
    rw [tlfn_lookup, if_neg (by rw [ht]; exact Bool.false_ne_true)]
  · intro t₁ t₂ hperm
    rw [tlfn_lookup, tlfn_lookup]
    by_cases h : (twoLetterFourNumberMatches t₁).isEmpty = true
    · have h2 : (twoLetterFourNumberMatches t₂).isEmpty = true := by
        rw [List.isEmpty_iff_length_eq_zero] at h ⊢
        rw [← hperm.length_eq]
        exact h
      rw [if_pos h, if_pos h2]
    · have h2 : ¬ (twoLetterFourNumberMatches t₂).isEmpty = true := by
        intro hc
        apply h
        rw [List.isEmpty_iff_length_eq_zero] at hc ⊢
        rw [hperm.length_eq]
        exact hc
      rw [if_neg h, if_neg h2, sortedDedup_eq_of_perm hperm]
  · decide

/-- C6 witness. Two texts whose matches are the same multiset in reverse
order render the identical field. -/
theorem tlfn_field_canonical_witness :
    (twoLetterFourNumberMatches (str "AB1234 CD5678")).isEmpty = false
    ∧ lookupA (extract_two_letter_four_number_patterns (str "AB1234 CD5678"))
        (str "Two Letter Four Number Patterns")
      = some (commaJoin (List.insertionSort StrLe
          (twoLetterFourNumberMatches (str "AB1234 CD5678")).dedup))
    ∧ (twoLetterFourNumberMatches (str "AB1234 CD5678")).Perm
      (twoLetterFourNumberMatches (str "CD5678 AB1234"))
    ∧ lookupA (extract_two_letter_four_number_patterns (str "AB1234 CD5678"))
        (str "Two Letter Four Number Patterns")
      = lookupA (extract_two_letter_four_number_patterns (str "CD5678 AB1234"))
          (str "Two Letter Four Number Patterns") :=
  ⟨by decide, tlfn_field_canonical.1 _ (by decide), by decide,
   tlfn_field_canonical.2.1 _ _ (by decide)⟩

/-! ## Claim C1: repair stabilizes only after two passes -/

/-- The let-chain of `repair_data_structure` written with the named stage
definitions (definitional equality). -/
theorem repair_unfold (d : VocabData) :
    repair_data_structure d =
      ({ d with files_pid := repairFiles d, instruments := repairInstruments d },
       (repairOrphans d).map (fun k => str "❌ Instruments orphelins supprimés : " ++ k)
         ++ (repairEmptyFiles d).map
            (fun k => str "⚠️ Fichier PDF sans instrument supprimé : " ++ k)) := rfl

/-- Preservation of a lookup by a key-membership filter that keeps `k`. -/
theorem lookupA_filter_notMem {α : Type} (m : List (Str × α)) (ex : List Str) (k : Str)
    (hk : ¬ k ∈ ex) :
    lookupA (m.filter (fun p => decide (¬ p.1 ∈ ex))) k = lookupA m k := by
  induction m with
  | nil => rfl
  | cons p rest ih =>
    rw [List.filter_cons]
    by_cases hp : p.1 = k
    · rw [if_pos (by rw [hp]; exact decide_eq_true hk)]
      simp only [lookupA, if_pos hp]
    · by_cases hq : (decide (¬ p.1 ∈ ex)) = true
      · rw [if_pos hq]
        simp only [lookupA, if_neg hp]
        exact ih
      · rw [if_neg hq]
        simp only [lookupA, if_neg hp]
        exact ih

/-- Every key surviving the orphan deletion has a `files.pid` entry. -/
theorem repair_instr_key_sub (d : VocabData) :
    ∀ k ∈ (repairInstruments d).map Prod.fst, k ∈ d.files_pid.map Prod.fst := by
  intro k hk
  obtain ⟨p, hpmem, rfl⟩ := List.mem_map.mp hk
  have hp := List.mem_filter.mp hpmem
  have hnot : ¬ p.1 ∈ repairOrphans d := by simpa using hp.2
  by_contra hnf
  apply hnot
  unfold repairOrphans
  exact List.mem_filter.mpr ⟨List.mem_map.mpr ⟨p, hp.1, rfl⟩, decide_eq_true hnf⟩

/-- Every file key surviving the file deletion has a non-missing, non-empty
instrument list in the repaired instruments mapping. -/
theorem repair_files_ok (d : VocabData) :
    ∀ k ∈ (repairFiles d).map Prod.fst,
      instrMissingOrEmpty (repairInstruments d) k = false := by
  intro k hk
  obtain ⟨p, hpmem, rfl⟩ := List.mem_map.mp hk
  have hp := List.mem_filter.mp hpmem
  have hnot : ¬ p.1 ∈ repairEmptyFiles d := by simpa using hp.2
  by_contra hbad
  apply hnot
  unfold repairEmptyFiles
  refine List.mem_filter.mpr ⟨List.mem_map.mpr ⟨p, hp.1, rfl⟩, ?_⟩
  cases hmb : instrMissingOrEmpty (repairInstruments d) p.1 with
  | true => rfl
  | false => exact absurd hmb hbad

/-- When every file key already has a non-empty instrument list, the repair
pass deletes no file, and the file keys keep non-empty lists afterwards. -/
theorem repair_keeps_ok_files (d : VocabData)
    (h2 : ∀ k ∈ d.files_pid.map Prod.fst, instrMissingOrEmpty d.instruments k = false) :
    repairFiles d = d.files_pid
    ∧ ∀ k ∈ d.files_pid.map Prod.fst,
        instrMissingOrEmpty (repairInstruments d) k = false := by
  have hpres : ∀ k ∈ d.files_pid.map Prod.fst,
      instrMissingOrEmpty (repairInstruments d) k
        = instrMissingOrEmpty d.instruments k := by
    intro k hk
    unfold instrMissingOrEmpty repairInstruments
    rw [lookupA_filter_notMem]
    intro horph
    unfold repairOrphans at horph
    have h := List.mem_filter.mp horph
    have hnf : ¬ k ∈ d.files_pid.map Prod.fst := of_decide_eq_true h.2
    exact hnf hk
  have hempty : repairEmptyFiles d = [] := by
    unfold repairEmptyFiles
    apply List.filter_eq_nil_iff.mpr
    intro k hk
    rw [hpres k hk, h2 k hk]
    exact Bool.false_ne_true
  constructor
  · unfold repairFiles
    rw [hempty]
    apply List.filter_eq_self.mpr
    intro p _
    simp
  · intro k hk
    rw [hpres k hk]
    exact h2 k hk

/-- A vocabulary satisfying both invariant halves is a strict fixed point of
repair: no change lines, value unchanged. -/
theorem repair_fixed (d : VocabData)
    (h1 : ∀ k ∈ d.instruments.map Prod.fst, k ∈ d.files_pid.map Prod.fst)
    (h2 : ∀ k ∈ d.files_pid.map Prod.fst, instrMissingOrEmpty d.instruments k = false) :
    repair_data_structure d = (d, []) := by
  have horph : repairOrphans d = [] := by
    unfold repairOrphans
    apply List.filter_eq_nil_iff.mpr
    intro k hk
    simp [h1 k hk]
  have hinstr : repairInstruments d = d.instruments := by
    unfold repairInstruments
    rw [horph]
    apply List.filter_eq_self.mpr
    intro p _
    simp
  have hempty : repairEmptyFiles d = [] := by
    unfold repairEmptyFiles
    rw [hinstr]
    apply List.filter_eq_nil_iff.mpr
    intro k hk
    rw [h2 k hk]
    exact Bool.false_ne_true
  have hfiles : repairFiles d = d.files_pid := by
    unfold repairFiles
    rw [hempty]
    apply List.filter_eq_self.mpr
    intro p _
    simp
  rw [repair_unfold, horph, hempty, hinstr, hfiles]
  simp

/-- C1 counterexample. A vocabulary repaired once is not necessarily stable:
starting from the store whose only file has an empty instrument list, the
first repair deletes the file but leaves the empty instrument entry, and the
second repair both logs a change line (the claim requires zero) and returns
a changed vocabulary (the claim requires it unchanged). -/
theorem repair_not_idempotent_ce :
    (repair_data_structure ((repair_data_structure dRep).1)).2 ≠ []
    ∧ (repair_data_structure ((repair_data_structure dRep).1)).1
        ≠ (repair_data_structure dRep).1 :=
  ⟨by decide, by decide⟩

/-- C1 amended. Repair stabilizes after two passes, not one: for every
vocabulary, running repair a third time reports no change lines (only the
no-inconsistency line) and returns the twice-repaired vocabulary unchanged;
the second pass may still remove instrument entries orphaned by the first
pass's file deletions. -/
theorem repair_stable_after_two_passes (d : VocabData) :
    repair_data_structure ((repair_data_structure (repair_data_structure d).1).1)
      = ((repair_data_structure (repair_data_structure d).1).1, []) := by
  have hok : ∀ k ∈ ((repair_data_structure d).1).files_pid.map Prod.fst,
      instrMissingOrEmpty ((repair_data_structure d).1).instruments k = false :=
    repair_files_ok d
  obtain ⟨hfeq, hok2⟩ := repair_keeps_ok_files ((repair_data_structure d).1) hok
  apply repair_fixed
  · intro k hk
    have hsub := repair_instr_key_sub ((repair_data_structure d).1) k hk
    show k ∈ (repairFiles ((repair_data_structure d).1)).map Prod.fst
    rw [hfeq]
    exact hsub
  · intro k hk
    have hk' : k ∈ ((repair_data_structure d).1).files_pid.map Prod.fst := by
      have hkf : k ∈ (repairFiles ((repair_data_structure d).1)).map Prod.fst := hk
      rw [hfeq] at hkf
      exact hkf
    exact hok2 k hk'
